import Mathlib

/-!
# Verification of the contact-project core

Shallow embedding of the identifier codec (`src/signature-encoder.js`), the
knowledge-graph scoring and ranking engine (`src/utilities/knowledge_graph.js`)
and the outreach ledger / response correlator
(`src/utilities/outreach_tracker.js`), together with proofs settling the
spec claims about them.

Modelling conventions:
* JavaScript strings are `List Char`; `String.prototype.charAt(i)` for an
  out-of-range `i` yields the empty string, which `Array.prototype.indexOf`
  maps to `-1`; we model `charAt` as `List.get?` and the failed lookup as the
  digit `-1`, exactly the composite behaviour of the source.
* JavaScript numbers that hold counts are `ℕ`, timestamps (milliseconds since
  the epoch) are `ℤ`, stored fractional data (rates, day counts) are `ℚ`, and
  real-valued intermediate computations (which use `Math.log`) are `ℝ`.
* JavaScript objects used as string-keyed maps (`outreachStatus`,
  `trackingCodes`, ...) preserve insertion order for non-integral keys such as
  `"contact_7"`; they are modelled as association lists in insertion order,
  with in-place update keeping the position of an existing key.  The keys
  `"contact_" ++ n` are in bijection with the numeric ids `n`
  (`parseInt(id.replace('contact_', ''), 10)` in the source recovers `n`),
  so keys are modelled by `ℕ`.
-/

namespace ContactProject

/-! ## Identifier codec (`src/signature-encoder.js`) -/

/-- The `SEPARATORS` array: the six visually similar vertical-bar characters;
the array index of a separator is its base-6 digit. -/
def SEPARATORS : List Char := ['|', '¦', 'ǀ', '｜', '┃', '║']

/-- `SEPARATORS[d]`.  The source only ever indexes with digits `d < 6`
produced by `% base`, so the default branch is unreachable there. -/
def sepAt (d : ℕ) : Char := SEPARATORS.getD d ' '

/-- The `while (tempNumber > 0)` loop of `intToBaseNArray`, with structural
fuel so that the kernel can evaluate it (`n` itself is enough fuel, since the
loop variable strictly decreases). -/
def toBaseDigitsAux (base : ℕ) : ℕ → ℕ → List ℕ
  | 0, _ => []
  | fuel + 1, n =>
    if 2 ≤ base ∧ 0 < n then
      toBaseDigitsAux base fuel (n / base) ++ [n % base]
    else
      []

/-- Most-significant-first base-`base` digits of `n`, `[]` for `0`: the value
computed by the `while (tempNumber > 0)` loop of `intToBaseNArray`.  The
source always calls it with `base = SEPARATORS.length = 6`; the guard
`2 ≤ base` marks the inputs on which the JavaScript loop terminates. -/
def toBaseDigits (base n : ℕ) : List ℕ := toBaseDigitsAux base n n

/-- `intToBaseNArray(number, base, length)`: base conversion followed by the
zero-padding loop.  Note that when `number ≥ base ^ length` the digit list is
*longer* than `length` and is returned whole — nothing is truncated here. -/
def intToBaseNArray (number base length : ℕ) : List ℕ :=
  let digits := toBaseDigits base number
  List.replicate (length - digits.length) 0 ++ digits

/-- The assembly loop of `generateStealthSignature`: each chunk except the
last is followed by the separator for its digit.  A digit list shorter than
`chunks.length - 1` never reaches this point in the source
(`intToBaseNArray` pads to at least that length); extra digits beyond
`chunks.length - 1` are ignored, exactly as the `i < numSeparators` guard
ignores them. -/
def interleaveChunks : List (List Char) → List ℕ → List Char
  | [], _ => []
  | [c], _ => c
  | c :: cs, d :: ds => c ++ sepAt d :: interleaveChunks cs ds
  | c :: cs, [] => c ++ interleaveChunks cs []

/-- `generateStealthSignature(idNumber, signatureChunks)`. -/
def generateStealthSignature (idNumber : ℕ) (signatureChunks : List (List Char)) :
    List Char :=
  interleaveChunks signatureChunks
    (intToBaseNArray idNumber SEPARATORS.length (signatureChunks.length - 1))

/-- The separator-offset loop of `decodeStealthSignature`: offset of each
expected separator, accumulating chunk lengths (`pos` is the running
`position`). -/
def sepIndices : List (List Char) → ℕ → List ℕ
  | [], _ => []
  | [_], _ => []
  | c :: cs, pos => (pos + c.length) :: sepIndices cs (pos + c.length + 1)

/-- `SEPARATORS.indexOf(signature.charAt(idx))`: `charAt` out of range gives
the empty string and `indexOf` then gives `-1`; an in-range character not in
the alphabet also gives `-1`. -/
def sepDigitVal (oc : Option Char) : ℤ :=
  match oc with
  | none => -1
  | some c =>
    match SEPARATORS.findIdx? (fun s => s == c) with
    | some i => (i : ℤ)
    | none => -1

/-- `decodeStealthSignature(signature, expectedChunks)`.  Total: the source
function contains no `throw` and returns a number on every input. -/
def decodeStealthSignature (signature : List Char) (expectedChunks : List (List Char)) :
    ℤ :=
  let idxs := sepIndices expectedChunks 0
  let digits := idxs.map (fun i => sepDigitVal signature[i]?)
  digits.foldl (fun acc d => acc * (SEPARATORS.length : ℤ) + d) 0

/-- The fixed default chunk template used by `recordOutreach` and
`generateTrackingCodes`. -/
def defaultChunks : List (List Char) :=
  [" Larry Velez ".toList, " kogi.ai ".toList, " 212-380-1014 ".toList, " ".toList]

/-! ### Codec lemmas -/

lemma toBaseDigitsAux_fuel (base : ℕ) :
    ∀ f1 f2 n, n ≤ f1 → n ≤ f2 →
      toBaseDigitsAux base f1 n = toBaseDigitsAux base f2 n := by
  intro f1
  induction f1 with
  | zero =>
    intro f2 n h1 _
    interval_cases n
    cases f2 <;> simp [toBaseDigitsAux]
  | succ f ih =>
    intro f2 n h1 h2
    cases f2 with
    | zero =>
      interval_cases n
      simp [toBaseDigitsAux]
    | succ f2' =>
      simp only [toBaseDigitsAux]
      by_cases h : 2 ≤ base ∧ 0 < n
      · have hdiv : n / base < n := Nat.div_lt_self h.2 h.1
        rw [ih f2' (n / base) (by omega) (by omega)]
      · simp [h]

/-- The defining recursion of `toBaseDigits`, free of fuel. -/
lemma toBaseDigits_eq (base n : ℕ) :
    toBaseDigits base n =
      if 2 ≤ base ∧ 0 < n then toBaseDigits base (n / base) ++ [n % base]
      else [] := by
  by_cases h : 2 ≤ base ∧ 0 < n
  · rw [if_pos h]
    obtain ⟨hb, hn⟩ := h
    cases n with
    | zero => exact absurd hn (by omega)
    | succ m =>
      have hdiv : (m + 1) / base ≤ m := by
        have : (m + 1) / base < m + 1 := Nat.div_lt_self (by omega) hb
        omega
      show toBaseDigitsAux base (m + 1) (m + 1) = _
      rw [show toBaseDigitsAux base (m + 1) (m + 1)
          = toBaseDigitsAux base m ((m + 1) / base) ++ [(m + 1) % base] from by
        rw [toBaseDigitsAux]
        rw [if_pos ⟨hb, Nat.succ_pos m⟩]]
      rw [toBaseDigitsAux_fuel base m ((m + 1) / base) ((m + 1) / base) hdiv le_rfl]
      rfl
  · rw [if_neg h]
    cases n with
    | zero => rfl
    | succ m =>
      show toBaseDigitsAux base (m + 1) (m + 1) = []
      rw [toBaseDigitsAux]
      rw [if_neg h]

lemma toBaseDigits_lt (base : ℕ) (hbase : 2 ≤ base) :
    ∀ n, ∀ d ∈ toBaseDigits base n, d < base := by
  intro n
  induction n using Nat.strong_induction_on with
  | _ n ih =>
    intro d hd
    rw [toBaseDigits_eq] at hd
    by_cases h : 2 ≤ base ∧ 0 < n
    · rw [if_pos h] at hd
      rw [List.mem_append] at hd
      rcases hd with hd | hd
      · exact ih (n / base) (Nat.div_lt_self h.2 h.1) d hd
      · rw [List.mem_singleton] at hd
        subst hd
        exact Nat.mod_lt n (by omega)
    · rw [if_neg h] at hd
      exact absurd hd (List.not_mem_nil d)

lemma toBaseDigits_length_le (base : ℕ) (hbase : 2 ≤ base) :
    ∀ k n, n < base ^ k → (toBaseDigits base n).length ≤ k := by
  intro k
  induction k with
  | zero =>
    intro n hn
    simp only [pow_zero, Nat.lt_one_iff] at hn
    subst hn
    rw [toBaseDigits_eq]
    simp
  | succ k ih =>
    intro n hn
    rw [toBaseDigits_eq]
    by_cases h : 2 ≤ base ∧ 0 < n
    · have hdivlt : n / base < base ^ k := by
        rw [Nat.div_lt_iff_lt_mul (by omega)]
        calc n < base ^ (k + 1) := hn
        _ = base ^ k * base := by ring
      rw [if_pos h]
      have := ih (n / base) hdivlt
      simp only [List.length_append, List.length_singleton]
      omega
    · rw [if_neg h]
      simp

/-- The most-significant-first Horner recomposition, over `ℕ`, of the digits
of `n`, started from accumulator `a`. -/
lemma horner_toBaseDigits (base : ℕ) (hbase : 2 ≤ base) :
    ∀ n (a : ℕ),
      (toBaseDigits base n).foldl (fun acc d => acc * base + d) a
      = a * base ^ (toBaseDigits base n).length + n := by
  intro n
  induction n using Nat.strong_induction_on with
  | _ n ih =>
    intro a
    rw [toBaseDigits_eq]
    by_cases h : 2 ≤ base ∧ 0 < n
    · have hdiv : n / base < n := Nat.div_lt_self h.2 h.1
      rw [if_pos h, List.foldl_append, List.foldl_cons, List.foldl_nil,
        ih (n / base) hdiv a, List.length_append, List.length_singleton]
      have hdm : base * (n / base) + n % base = n := Nat.div_add_mod n base
      calc (a * base ^ (toBaseDigits base (n / base)).length + n / base) * base + n % base
          = a * base ^ ((toBaseDigits base (n / base)).length + 1)
            + (base * (n / base) + n % base) := by ring
        _ = a * base ^ ((toBaseDigits base (n / base)).length + 1) + n := by rw [hdm]
    · rw [if_neg h, List.foldl_nil, List.length_nil, pow_zero, Nat.mul_one]
      have : n = 0 := by
        rcases Nat.eq_zero_or_pos n with h0 | h0
        · exact h0
        · exact absurd ⟨hbase, h0⟩ h
      omega

lemma horner_replicate_zero (base a : ℕ) :
    ∀ p, (List.replicate p 0).foldl (fun acc d => acc * base + d) a
      = a * base ^ p := by
  intro p
  induction p generalizing a with
  | zero => simp
  | succ p ih =>
    rw [List.replicate_succ, List.foldl_cons, ih, pow_succ]
    ring

/-- Horner evaluation (over `ℕ`) of the padded digit array of
`intToBaseNArray` recovers the encoded number. -/
lemma horner_intToBaseNArray (base : ℕ) (hbase : 2 ≤ base) (n k : ℕ) :
    (intToBaseNArray n base k).foldl (fun acc d => acc * base + d) 0 = n := by
  unfold intToBaseNArray
  rw [List.foldl_append, horner_replicate_zero,
    horner_toBaseDigits base hbase n]
  simp

/-- Transport of the Horner fold from `ℕ` to the `ℤ`-valued fold used by
`decodeStealthSignature`. -/
lemma foldl_horner_cast (base : ℕ) :
    ∀ (ds : List ℕ) (a : ℕ),
      (ds.map (fun d : ℕ => (d : ℤ))).foldl (fun acc d => acc * (base : ℤ) + d) (a : ℤ)
      = ((ds.foldl (fun acc d => acc * base + d) a : ℕ) : ℤ) := by
  intro ds
  induction ds with
  | nil => intro a; simp
  | cons d ds ih =>
    intro a
    rw [List.map_cons, List.foldl_cons, List.foldl_cons]
    rw [show (a : ℤ) * (base : ℤ) + (d : ℤ) = ((a * base + d : ℕ) : ℤ) by push_cast; ring]
    exact ih (a * base + d)

lemma intToBaseNArray_length (base : ℕ) (hbase : 2 ≤ base) (n k : ℕ)
    (hn : n < base ^ k) : (intToBaseNArray n base k).length = k := by
  unfold intToBaseNArray
  have := toBaseDigits_length_le base hbase k n hn
  simp only [List.length_append, List.length_replicate]
  omega

lemma intToBaseNArray_lt (base : ℕ) (hbase : 2 ≤ base) (n k : ℕ) :
    ∀ d ∈ intToBaseNArray n base k, d < base := by
  intro d hd
  unfold intToBaseNArray at hd
  rw [List.mem_append] at hd
  rcases hd with hd | hd
  · rw [List.mem_replicate] at hd
    omega
  · exact toBaseDigits_lt base hbase n d hd

lemma sepDigitVal_sepAt (d : ℕ) (hd : d < 6) :
    sepDigitVal (some (sepAt d)) = (d : ℤ) := by
  interval_cases d <;> rfl

/-- Reading the characters at the separator offsets of an assembled signature
recovers exactly the encoded digits. -/
lemma extract_digits :
    ∀ (ds : List ℕ) (pre : List Char) (chunks : List (List Char)),
      chunks.length = ds.length + 1 → (∀ d ∈ ds, d < 6) →
      (sepIndices chunks pre.length).map
        (fun i => sepDigitVal (pre ++ interleaveChunks chunks ds)[i]?)
      = ds.map (fun d : ℕ => (d : ℤ)) := by
  intro ds
  induction ds with
  | nil =>
    intro pre chunks hlen _
    match chunks, hlen with
    | [c], _ => simp [sepIndices]
  | cons d ds ih =>
    intro pre chunks hlen hlt
    match chunks, hlen with
    | c :: c2 :: cs, hlen =>
      have hlen' : (c2 :: cs).length = ds.length + 1 := by
        simpa using hlen
      simp only [sepIndices, interleaveChunks, List.map_cons]
      have hidx : (pre ++ (c ++ sepAt d :: interleaveChunks (c2 :: cs) ds))[pre.length + c.length]?
          = some (sepAt d) := by
        rw [show pre ++ (c ++ sepAt d :: interleaveChunks (c2 :: cs) ds)
            = (pre ++ c) ++ sepAt d :: interleaveChunks (c2 :: cs) ds by
          simp [List.append_assoc]]
        rw [List.getElem?_append_right (by simp)]
        simp
      have htail : (sepIndices (c2 :: cs) (pre.length + c.length + 1)).map
            (fun i => sepDigitVal (pre ++ (c ++ sepAt d :: interleaveChunks (c2 :: cs) ds))[i]?)
          = ds.map (fun d : ℕ => (d : ℤ)) := by
        have hpre : (pre ++ (c ++ [sepAt d])).length = pre.length + c.length + 1 := by
          simp only [List.length_append, List.length_cons, List.length_nil]
          omega
        have := ih (pre ++ (c ++ [sepAt d])) (c2 :: cs) hlen'
          (fun x hx => hlt x (by simp [hx]))
        rw [hpre] at this
        rw [show (pre ++ (c ++ [sepAt d])) ++ interleaveChunks (c2 :: cs) ds
            = pre ++ (c ++ sepAt d :: interleaveChunks (c2 :: cs) ds) by
          simp [List.append_assoc]] at this
        exact this
      rw [hidx, sepDigitVal_sepAt d (hlt d (by simp)), htail]

/-- C1: for every slot count `k ∈ {1,2,3,4}`, every list of `k + 1` literal
chunks and every id with `0 ≤ id < 6 ^ k`, decoding the encoded signature
with the same chunk list recovers the id:
`decodeStealthSignature (generateStealthSignature id chunks) chunks = id`. -/
theorem C1_codec_roundtrip (k : ℕ) (hk1 : 1 ≤ k) (hk4 : k ≤ 4)
    (signatureChunks : List (List Char)) (hlen : signatureChunks.length = k + 1)
    (idNumber : ℕ) (hid : idNumber < 6 ^ k) :
    decodeStealthSignature (generateStealthSignature idNumber signatureChunks)
      signatureChunks = idNumber := by
  have hbase : (2 : ℕ) ≤ 6 := by omega
  have hslots : signatureChunks.length - 1 = k := by omega
  have hds_len : (intToBaseNArray idNumber 6 k).length = k :=
    intToBaseNArray_length 6 hbase idNumber k hid
  have hds_lt : ∀ d ∈ intToBaseNArray idNumber 6 k, d < 6 :=
    intToBaseNArray_lt 6 hbase idNumber k
  have hext := extract_digits (intToBaseNArray idNumber 6 k) [] signatureChunks
    (by rw [hlen, hds_len]) hds_lt
  simp only [List.nil_append, List.length_nil] at hext
  have hcast := foldl_horner_cast 6 (intToBaseNArray idNumber 6 k) 0
  rw [Nat.cast_zero] at hcast
  simp only [generateStealthSignature, decodeStealthSignature,
    show SEPARATORS.length = 6 from rfl, hslots]
  rw [hext, hcast, horner_intToBaseNArray 6 hbase idNumber k]

/-- Witness for C1: slot count 3, the default chunk template, id 42. -/
theorem C1_codec_roundtrip_witness :
    (1 ≤ 3 ∧ 3 ≤ 4 ∧ defaultChunks.length = 3 + 1 ∧ 42 < 6 ^ 3) ∧
    decodeStealthSignature (generateStealthSignature 42 defaultChunks)
      defaultChunks = 42 :=
  ⟨by decide,
    C1_codec_roundtrip 3 (by decide) (by decide) defaultChunks (by decide) 42 (by decide)⟩

/-- C2, failing input: `generateStealthSignature` does not fail for
`id = 216 = 6 ^ 3` on the 4-chunk (3-slot) default template; it silently
drops the low-order base-6 digit, producing exactly the signature of id 36,
which then decodes to 36 ≠ 216.  No `OverflowError` exists anywhere in the
source. -/
theorem C2_encode_overflow_truncates :
    216 = 6 ^ (defaultChunks.length - 1) ∧
    decodeStealthSignature (generateStealthSignature 216 defaultChunks)
      defaultChunks = 36 ∧
    generateStealthSignature 216 defaultChunks
      = generateStealthSignature 36 defaultChunks ∧
    (36 : ℤ) ≠ 216 := by decide

/-- C6, failing input: with expected chunks `["a", "b"]`, the signature
`"a#b"` has the non-separator `'#'` at the computed separator offset, and the
signature `"a"` puts the offset out of bounds; in both cases
`decodeStealthSignature` returns the integer `-1` (digit `-1` from the failed
alphabet lookup) instead of failing with a `DecodeError`. -/
theorem C6_decode_no_error :
    decodeStealthSignature "a#b".toList ["a".toList, "b".toList] = -1 ∧
    decodeStealthSignature "a".toList ["a".toList, "b".toList] = -1 := by decide

/-! ## Knowledge graph (`src/utilities/knowledge_graph.js`)

Entities are kept as a list in insertion order (`Object.values` of the
string-keyed `this.entities` map).  An observation is a JavaScript object with
a `type` tag and whichever metric fields it carries; absent fields are `none`.
`calculatedScore` is an `ℤ` because the source only ever writes `Math.round`
results into it. -/

structure Observation where
  type : String
  emailCount : Option ℕ := none
  lastContacted : Option ℚ := none
  responseRate : Option ℚ := none
  meetingCount : Option ℕ := none
  manualPriority : Option ℕ := none
  calculatedScore : Option ℤ := none
deriving DecidableEq

/-- A graph entity (`{ id, name, entityType, observations }`). -/
structure Entity where
  id : String
  name : String
  entityType : String
  observations : List Observation
deriving DecidableEq

/-- A relationship (`{ from, relationType, to }`); `from` and `to` are Lean
keywords, hence the trailing underscores. -/
structure Relationship where
  from_ : String
  relationType : String
  to_ : String
deriving DecidableEq

structure KnowledgeGraph where
  entities : List Entity
  relationships : List Relationship
deriving DecidableEq

/-- `findEntitiesByType`. -/
def findEntitiesByType (g : KnowledgeGraph) (entityType : String) : List Entity :=
  g.entities.filter (fun e => e.entityType == entityType)

/-- The five-factor weight object of `calculateImportanceScores`. -/
structure Weights where
  frequency : ℚ
  recency : ℚ
  responseRate : ℚ
  meetingFrequency : ℚ
  manualPriority : ℚ

/-- The default weights parameter of `calculateImportanceScores`. -/
def defaultWeights : Weights :=
  { frequency := 0.25, recency := 0.30, responseRate := 0.20,
    meetingFrequency := 0.15, manualPriority := 0.10 }

/-- `Math.round(x)`: round half toward `+∞`. -/
noncomputable def jsRound (x : ℝ) : ℤ := ⌊x + 1 / 2⌋

/-- `_normalizeFrequency(emailCount)`. -/
noncomputable def normalizeFrequency (emailCount : ℕ) : ℝ :=
  if emailCount ≤ 0 then 0
  else if 100 ≤ emailCount then 1
  else Real.log emailCount / Real.log 100

/-- `_normalizeRecency(lastContactedDate)`, with the current time `now`
passed explicitly (the source reads `new Date()`); timestamps are in
milliseconds, hence the `1000 * 60 * 60 * 24` divisor. -/
noncomputable def normalizeRecency (lastContactedDate : Option ℚ) (now : ℚ) : ℝ :=
  match lastContactedDate with
  | none => 0
  | some lastDate =>
    let daysDiff : ℝ := max 0 (((now - lastDate : ℚ) : ℝ) / (1000 * 60 * 60 * 24))
    max 0 (1 - daysDiff / 365)

/-- `_normalizeMeetingFrequency(meetingCount)`. -/
noncomputable def normalizeMeetingFrequency (meetingCount : ℕ) : ℝ :=
  if meetingCount ≤ 0 then 0
  else if 20 ≤ meetingCount then 1
  else (meetingCount : ℝ) / 20

/-- The per-contact score computation inlined in `calculateImportanceScores`:
the five `scores` entries (with the `|| 0` defaults of the source) combined
with the weights in the iteration order of the weight object, then
`Math.round(totalScore * 100)`. -/
noncomputable def computeScore (weights : Weights) (now : ℚ)
    (metricsObs importanceObs : Observation) : ℤ :=
  let scoresFrequency := normalizeFrequency (metricsObs.emailCount.getD 0)
  let scoresRecency := normalizeRecency metricsObs.lastContacted now
  let scoresResponseRate : ℝ := ((metricsObs.responseRate.getD 0 : ℚ) : ℝ)
  let scoresMeetingFrequency := normalizeMeetingFrequency (metricsObs.meetingCount.getD 0)
  let scoresManualPriority : ℝ := ((importanceObs.manualPriority.getD 0 : ℕ) : ℝ) / 10
  let totalScore :=
    scoresFrequency * (weights.frequency : ℝ)
    + scoresRecency * (weights.recency : ℝ)
    + scoresResponseRate * (weights.responseRate : ℝ)
    + scoresMeetingFrequency * (weights.meetingFrequency : ℝ)
    + scoresManualPriority * (weights.manualPriority : ℝ)
  jsRound (totalScore * 100)

/-- `importanceObs.calculatedScore = ...`: in-place mutation of the first
observation with type `importance_metrics` (the one `find` returned). -/
def updateFirstImportance : List Observation → ℤ → List Observation
  | [], _ => []
  | o :: os, s =>
    if o.type == "importance_metrics" then
      { o with calculatedScore := some s } :: os
    else
      o :: updateFirstImportance os s

/-- The body of the `contacts.forEach` loop of `calculateImportanceScores`
applied to one entity: only entities of type `Contact` that carry both a
`communication_metrics` and an `importance_metrics` observation are changed. -/
noncomputable def scoreEntity (weights : Weights) (now : ℚ) (e : Entity) : Entity :=
  if e.entityType == "Contact" then
    match e.observations.find? (fun o => o.type == "communication_metrics"),
          e.observations.find? (fun o => o.type == "importance_metrics") with
    | some metricsObs, some importanceObs =>
      let s := computeScore weights now metricsObs importanceObs
      { e with observations := updateFirstImportance e.observations s }
    | _, _ => e
  else e

/-- `calculateImportanceScores(weights)`: mutates the matching contact
entities in place; relationships are never touched. -/
noncomputable def calculateImportanceScores (weights : Weights) (now : ℚ)
    (g : KnowledgeGraph) : KnowledgeGraph :=
  { g with entities := g.entities.map (scoreEntity weights now) }

/-- The sort key of `getTopContacts`:
`observations.find(obs => obs.type === 'importance_metrics')?.calculatedScore || 0`. -/
def calculatedScoreOf (e : Entity) : ℤ :=
  ((e.observations.find? (fun o => o.type == "importance_metrics")).bind
    (fun o => o.calculatedScore)).getD 0

/-- The ordering realized by the comparator `scoreB - scoreA`: `a` may come
before `b` exactly when `a`'s score is at least `b`'s. -/
def scoreGE (a b : Entity) : Prop := calculatedScoreOf b ≤ calculatedScoreOf a

instance : DecidableRel scoreGE :=
  fun a b => inferInstanceAs (Decidable (calculatedScoreOf b ≤ calculatedScoreOf a))

instance : IsTotal Entity scoreGE :=
  ⟨fun a b => le_total (calculatedScoreOf b) (calculatedScoreOf a)⟩

instance : IsTrans Entity scoreGE :=
  ⟨fun _ _ _ hab hbc => le_trans hbc hab⟩

/-- `getTopContacts(n)`: `Array.prototype.sort` is stable (ES2019), and a
stable sort by a total preorder is exactly insertion sort by the associated
"may come before" relation. -/
def getTopContacts (g : KnowledgeGraph) (n : ℕ) : List Entity :=
  ((findEntitiesByType g "Contact").insertionSort scoreGE).take n

/-! ### Ranking (C4) -/

/-- An `importance_metrics` observation holding only a calculated score. -/
def impObs (s : ℤ) : Observation := { type := "importance_metrics", calculatedScore := some s }

/-- Two equally-scored contacts inserted in id-descending order. -/
def tieEntityLate : Entity :=
  { id := "contact_2", name := "B", entityType := "Contact", observations := [impObs 5] }

def tieEntityEarly : Entity :=
  { id := "contact_1", name := "A", entityType := "Contact", observations := [impObs 5] }

def tieGraph : KnowledgeGraph :=
  { entities := [tieEntityLate, tieEntityEarly], relationships := [] }

/-- C4, counterexample: on a store holding two Contacts with equal
`calculatedScore` 5, inserted as `contact_2` then `contact_1`,
`getTopContacts 2` returns them in insertion order `[contact_2, contact_1]`
— the tie is *not* broken by entity id ascending, which would require
`[contact_1, contact_2]`. -/
theorem C4_no_id_tiebreak :
    (getTopContacts tieGraph 2).map (fun e => (e.id, calculatedScoreOf e))
      = [("contact_2", 5), ("contact_1", 5)] ∧
    (getTopContacts tieGraph 2).map (fun e => e.id) ≠ ["contact_1", "contact_2"] := by
  decide

/-- C4 as amended: `getTopContacts n` returns at most `n` entities of kind
`Contact`, sorted by `calculatedScore` descending; ties are left in store
insertion order (stable sort) rather than broken by entity id; being a pure
function of the store, repeated calls on unchanged input return the identical
order. -/
theorem C4_rank_order (g : KnowledgeGraph) (n : ℕ) :
    List.Sorted scoreGE (getTopContacts g n) ∧
    (getTopContacts g n).length = min n (findEntitiesByType g "Contact").length ∧
    ∀ e, e ∈ getTopContacts g n → e ∈ findEntitiesByType g "Contact" := by
  refine ⟨?_, ?_, ?_⟩
  · exact List.Pairwise.sublist (List.take_sublist _ _)
      (List.sorted_insertionSort scoreGE _)
  · unfold getTopContacts
    rw [List.length_take,
      (List.perm_insertionSort scoreGE (findEntitiesByType g "Contact")).length_eq]
  · intro e he
    have h1 : e ∈ (findEntitiesByType g "Contact").insertionSort scoreGE :=
      List.take_subset _ _ he
    exact (List.perm_insertionSort scoreGE _).mem_iff.mp h1

/-- Witness for C4 at the concrete two-contact store. -/
theorem C4_rank_order_witness :
    tieEntityLate ∈ getTopContacts tieGraph 2 ∧
    tieEntityLate ∈ findEntitiesByType tieGraph "Contact" :=
  ⟨by decide, (C4_rank_order tieGraph 2).2.2 tieEntityLate (by decide)⟩

/-! ### Score formula (C5) -/

/-- The claim's wording of the frequency factor: 0 if `emailCount ≤ 0`, 1 if
`emailCount ≥ 100`, and `ln(emailCount)/ln(100)` otherwise. -/
noncomputable def specFrequencyFactor (emailCount : ℕ) : ℝ :=
  if emailCount ≤ 0 then 0
  else if 100 ≤ emailCount then 1
  else Real.log emailCount / Real.log 100

/-- The claim's wording of the meeting factor: `meetingCount/20` clamped to
`[0, 1]`. -/
noncomputable def specMeetingFactor (meetingCount : ℕ) : ℝ :=
  min 1 (max 0 ((meetingCount : ℝ) / 20))

/-- The claim's formula: `100 * Σ weight_i * factor_i`, with `responseRate`
used as-is and `manualPriority / 10`. -/
noncomputable def specScore (weights : Weights) (now : ℚ)
    (metricsObs importanceObs : Observation) : ℝ :=
  100 * ((weights.frequency : ℝ) * specFrequencyFactor (metricsObs.emailCount.getD 0)
    + (weights.recency : ℝ) * normalizeRecency metricsObs.lastContacted now
    + (weights.responseRate : ℝ) * ((metricsObs.responseRate.getD 0 : ℚ) : ℝ)
    + (weights.meetingFrequency : ℝ) * specMeetingFactor (metricsObs.meetingCount.getD 0)
    + (weights.manualPriority : ℝ) * (((importanceObs.manualPriority.getD 0 : ℕ) : ℝ) / 10))

lemma meeting_factor_eq (n : ℕ) : normalizeMeetingFrequency n = specMeetingFactor n := by
  unfold normalizeMeetingFrequency specMeetingFactor
  by_cases h0 : n ≤ 0
  · have hn : n = 0 := by omega
    subst hn
    norm_num
  · rw [if_neg h0]
    by_cases h20 : 20 ≤ n
    · rw [if_pos h20]
      have h20R : (20 : ℝ) ≤ (n : ℝ) := by exact_mod_cast h20
      have h1 : (1 : ℝ) ≤ (n : ℝ) / 20 := by
        rw [le_div_iff₀ (by norm_num : (0 : ℝ) < 20)]
        linarith
      rw [max_eq_right (by positivity), min_eq_left h1]
    · rw [if_neg h20]
      have hle : (n : ℝ) / 20 ≤ 1 := by
        rw [div_le_one (by norm_num : (0 : ℝ) < 20)]
        exact_mod_cast (by omega : n ≤ 20)
      rw [max_eq_right (by positivity), min_eq_right hle]

/-- The inline score computation of the source equals the claim's formula. -/
lemma computeScore_eq_spec (weights : Weights) (now : ℚ) (m imp : Observation) :
    computeScore weights now m imp = jsRound (specScore weights now m imp) := by
  simp only [computeScore, specScore, specFrequencyFactor, normalizeFrequency,
    meeting_factor_eq]
  congr 1
  ring

lemma find?_updateFirstImportance (s : ℤ) :
    ∀ (obs : List Observation) (imp : Observation),
      obs.find? (fun o => o.type == "importance_metrics") = some imp →
      (updateFirstImportance obs s).find? (fun o => o.type == "importance_metrics")
        = some { imp with calculatedScore := some s } := by
  intro obs
  induction obs with
  | nil =>
    intro imp h
    exact absurd h (by simp)
  | cons o os ih =>
    intro imp h
    by_cases ht : (o.type == "importance_metrics") = true
    · rw [@List.find?_cons_of_pos Observation
        (fun x => x.type == "importance_metrics") o os ht] at h
      injection h with h
      subst h
      unfold updateFirstImportance
      rw [if_pos ht]
      exact @List.find?_cons_of_pos Observation
        (fun x => x.type == "importance_metrics") _ os ht
    · rw [@List.find?_cons_of_neg Observation
        (fun x => x.type == "importance_metrics") o os ht] at h
      unfold updateFirstImportance
      rw [if_neg ht, @List.find?_cons_of_neg Observation
        (fun x => x.type == "importance_metrics") o (updateFirstImportance os s) ht]
      exact ih imp h

/-- All-ones weights (a caller-supplied mapping that does not sum to 1). -/
def onesWeights : Weights :=
  { frequency := 1, recency := 1, responseRate := 1,
    meetingFrequency := 1, manualPriority := 1 }

/-- Metrics that put every factor at its maximum 1. -/
def fullCommObs : Observation :=
  { type := "communication_metrics", emailCount := some 100,
    lastContacted := some 0, responseRate := some 1, meetingCount := some 20 }

def fullImpObs : Observation :=
  { type := "importance_metrics", manualPriority := some 10 }

/-- C5: for every weight mapping and every Contact carrying both a
`communication_metrics` and an `importance_metrics` observation, the
`calculatedScore` written by the scoring pass equals
`round(100 * Σ weight_i * factor_i)` with the factors as stated by the claim;
and no clamping is applied to the final score — with all-ones weights and
maximal factors the written score is 500 > 100. -/
theorem C5_score_formula :
    (∀ (weights : Weights) (now : ℚ) (e : Entity) (metricsObs importanceObs : Observation),
      e.entityType = "Contact" →
      e.observations.find? (fun o => o.type == "communication_metrics") = some metricsObs →
      e.observations.find? (fun o => o.type == "importance_metrics") = some importanceObs →
      ((scoreEntity weights now e).observations.find?
          (fun o => o.type == "importance_metrics")).bind (fun o => o.calculatedScore)
        = some (jsRound (specScore weights now metricsObs importanceObs))) ∧
    computeScore onesWeights 0 fullCommObs fullImpObs = 500 ∧ (100 : ℤ) < 500 := by
  refine ⟨?_, ?_, by norm_num⟩
  · intro weights now e metricsObs importanceObs hty hm himp
    unfold scoreEntity
    rw [if_pos (by simp [hty])]
    simp only [hm, himp]
    rw [find?_updateFirstImportance _ e.observations importanceObs himp]
    rw [computeScore_eq_spec]
    rfl
  · simp only [computeScore, normalizeFrequency, normalizeRecency,
      normalizeMeetingFrequency, jsRound, onesWeights, fullCommObs, fullImpObs]
    norm_num

/-- A Contact entity carrying the two maximal observations. -/
def witEntity : Entity :=
  { id := "contact_9", name := "W", entityType := "Contact",
    observations := [fullCommObs, fullImpObs] }

/-- Witness for C5 at a concrete contact. -/
theorem C5_score_formula_witness :
    (witEntity.entityType = "Contact" ∧
     witEntity.observations.find? (fun o => o.type == "communication_metrics")
       = some fullCommObs ∧
     witEntity.observations.find? (fun o => o.type == "importance_metrics")
       = some fullImpObs) ∧
    ((scoreEntity onesWeights 0 witEntity).observations.find?
        (fun o => o.type == "importance_metrics")).bind (fun o => o.calculatedScore)
      = some (jsRound (specScore onesWeights 0 fullCommObs fullImpObs)) :=
  ⟨⟨by decide, by decide, by decide⟩,
    C5_score_formula.1 onesWeights 0 witEntity fullCommObs fullImpObs
      (by decide) (by decide) (by decide)⟩

/-! ### Monotonicity (C8) -/

lemma normalizeFrequency_nonneg (n : ℕ) : 0 ≤ normalizeFrequency n := by
  unfold normalizeFrequency
  split_ifs with h1 h2
  · exact le_refl 0
  · norm_num
  · exact div_nonneg
      (Real.log_nonneg (by exact_mod_cast (by omega : 1 ≤ n)))
      (Real.log_nonneg (by norm_num))

lemma normalizeFrequency_mono {n1 n2 : ℕ} (h : n1 ≤ n2) :
    normalizeFrequency n1 ≤ normalizeFrequency n2 := by
  by_cases h1 : n1 ≤ 0
  · rw [show normalizeFrequency n1 = 0 from by unfold normalizeFrequency; rw [if_pos h1]]
    exact normalizeFrequency_nonneg n2
  · unfold normalizeFrequency
    rw [if_neg h1, if_neg (show ¬ n2 ≤ 0 by omega)]
    by_cases h2 : 100 ≤ n1
    · rw [if_pos h2, if_pos (show 100 ≤ n2 by omega)]
    · rw [if_neg h2]
      by_cases h3 : 100 ≤ n2
      · rw [if_pos h3, div_le_one (Real.log_pos (by norm_num))]
        exact Real.log_le_log (by exact_mod_cast (by omega : 0 < n1))
          (by exact_mod_cast (by omega : n1 ≤ 100))
      · rw [if_neg h3]
        have hlog : Real.log n1 ≤ Real.log n2 :=
          Real.log_le_log (by exact_mod_cast (by omega : 0 < n1)) (by exact_mod_cast h)
        have hpos : 0 < Real.log 100 := Real.log_pos (by norm_num)
        exact div_le_div_of_nonneg_right hlog hpos.le

lemma normalizeMeetingFrequency_mono {n1 n2 : ℕ} (h : n1 ≤ n2) :
    normalizeMeetingFrequency n1 ≤ normalizeMeetingFrequency n2 := by
  rw [meeting_factor_eq, meeting_factor_eq]
  unfold specMeetingFactor
  have : (n1 : ℝ) / 20 ≤ (n2 : ℝ) / 20 := by
    have : (n1 : ℝ) ≤ (n2 : ℝ) := by exact_mod_cast h
    linarith
  exact min_le_min le_rfl (max_le_max le_rfl this)

lemma normalizeRecency_mono (now : ℚ) {l1 l2 : ℚ} (h : l1 ≤ l2) :
    normalizeRecency (some l1) now ≤ normalizeRecency (some l2) now := by
  simp only [normalizeRecency]
  have hd : ((now - l2 : ℚ) : ℝ) ≤ ((now - l1 : ℚ) : ℝ) := by
    exact_mod_cast sub_le_sub_left h now
  have hC : (0 : ℝ) < 1000 * 60 * 60 * 24 := by norm_num
  have hdiv : ((now - l2 : ℚ) : ℝ) / (1000 * 60 * 60 * 24)
      ≤ ((now - l1 : ℚ) : ℝ) / (1000 * 60 * 60 * 24) :=
    div_le_div_of_nonneg_right hd hC.le
  have hmax : max 0 (((now - l2 : ℚ) : ℝ) / (1000 * 60 * 60 * 24))
      ≤ max 0 (((now - l1 : ℚ) : ℝ) / (1000 * 60 * 60 * 24)) :=
    max_le_max le_rfl hdiv
  refine max_le_max le_rfl ?_
  have : max 0 (((now - l2 : ℚ) : ℝ) / (1000 * 60 * 60 * 24)) / 365
      ≤ max 0 (((now - l1 : ℚ) : ℝ) / (1000 * 60 * 60 * 24)) / 365 :=
    div_le_div_of_nonneg_right hmax (by norm_num)
  linarith

/-- Combining per-factor inequalities through the weighted sum and
`Math.round`, for non-negative weights. -/
lemma computeScore_le (weights : Weights)
    (hwf : 0 ≤ weights.frequency) (hwr : 0 ≤ weights.recency)
    (hwrr : 0 ≤ weights.responseRate) (hwm : 0 ≤ weights.meetingFrequency)
    (hwp : 0 ≤ weights.manualPriority) (now : ℚ)
    (m1 m2 imp1 imp2 : Observation)
    (hf : normalizeFrequency (m1.emailCount.getD 0)
      ≤ normalizeFrequency (m2.emailCount.getD 0))
    (hr : normalizeRecency m1.lastContacted now
      ≤ normalizeRecency m2.lastContacted now)
    (hrr : m1.responseRate.getD 0 ≤ m2.responseRate.getD 0)
    (hm : normalizeMeetingFrequency (m1.meetingCount.getD 0)
      ≤ normalizeMeetingFrequency (m2.meetingCount.getD 0))
    (hp : imp1.manualPriority.getD 0 ≤ imp2.manualPriority.getD 0) :
    computeScore weights now m1 imp1 ≤ computeScore weights now m2 imp2 := by
  simp only [computeScore, jsRound]
  apply Int.floor_le_floor
  have hwf' : (0 : ℝ) ≤ (weights.frequency : ℝ) := by exact_mod_cast hwf
  have hwr' : (0 : ℝ) ≤ (weights.recency : ℝ) := by exact_mod_cast hwr
  have hwrr' : (0 : ℝ) ≤ (weights.responseRate : ℝ) := by exact_mod_cast hwrr
  have hwm' : (0 : ℝ) ≤ (weights.meetingFrequency : ℝ) := by exact_mod_cast hwm
  have hwp' : (0 : ℝ) ≤ (weights.manualPriority : ℝ) := by exact_mod_cast hwp
  have hrr' : ((m1.responseRate.getD 0 : ℚ) : ℝ) ≤ ((m2.responseRate.getD 0 : ℚ) : ℝ) := by
    exact_mod_cast hrr
  have hp' : ((imp1.manualPriority.getD 0 : ℕ) : ℝ) / 10
      ≤ ((imp2.manualPriority.getD 0 : ℕ) : ℝ) / 10 := by
    have : ((imp1.manualPriority.getD 0 : ℕ) : ℝ) ≤ ((imp2.manualPriority.getD 0 : ℕ) : ℝ) := by
      exact_mod_cast hp
    linarith
  have hsum :
      normalizeFrequency (m1.emailCount.getD 0) * (weights.frequency : ℝ)
        + normalizeRecency m1.lastContacted now * (weights.recency : ℝ)
        + ((m1.responseRate.getD 0 : ℚ) : ℝ) * (weights.responseRate : ℝ)
        + normalizeMeetingFrequency (m1.meetingCount.getD 0) * (weights.meetingFrequency : ℝ)
        + ((imp1.manualPriority.getD 0 : ℕ) : ℝ) / 10 * (weights.manualPriority : ℝ)
      ≤ normalizeFrequency (m2.emailCount.getD 0) * (weights.frequency : ℝ)
        + normalizeRecency m2.lastContacted now * (weights.recency : ℝ)
        + ((m2.responseRate.getD 0 : ℚ) : ℝ) * (weights.responseRate : ℝ)
        + normalizeMeetingFrequency (m2.meetingCount.getD 0) * (weights.meetingFrequency : ℝ)
        + ((imp2.manualPriority.getD 0 : ℕ) : ℝ) / 10 * (weights.manualPriority : ℝ) := by
    apply add_le_add
    apply add_le_add
    apply add_le_add
    apply add_le_add
    · exact mul_le_mul_of_nonneg_right hf hwf'
    · exact mul_le_mul_of_nonneg_right hr hwr'
    · exact mul_le_mul_of_nonneg_right hrr' hwrr'
    · exact mul_le_mul_of_nonneg_right hm hwm'
    · exact mul_le_mul_of_nonneg_right hp' hwp'
  have := mul_le_mul_of_nonneg_right hsum (by norm_num : (0 : ℝ) ≤ 100)
  linarith

/-- C8: with the default (non-negative) weights and all other metric fields
held fixed, the computed score is monotonically non-decreasing in
`emailCount`, `responseRate`, `meetingCount` and `manualPriority`, and
monotonically non-increasing in the number of days since `lastContacted`
(i.e. non-decreasing in the `lastContacted` timestamp itself). -/
theorem C8_score_monotonicity :
    (∀ (now : ℚ) (m imp : Observation) (n1 n2 : ℕ), n1 ≤ n2 →
      computeScore defaultWeights now { m with emailCount := some n1 } imp
        ≤ computeScore defaultWeights now { m with emailCount := some n2 } imp) ∧
    (∀ (now : ℚ) (m imp : Observation) (r1 r2 : ℚ), r1 ≤ r2 →
      computeScore defaultWeights now { m with responseRate := some r1 } imp
        ≤ computeScore defaultWeights now { m with responseRate := some r2 } imp) ∧
    (∀ (now : ℚ) (m imp : Observation) (c1 c2 : ℕ), c1 ≤ c2 →
      computeScore defaultWeights now { m with meetingCount := some c1 } imp
        ≤ computeScore defaultWeights now { m with meetingCount := some c2 } imp) ∧
    (∀ (now : ℚ) (m imp : Observation) (p1 p2 : ℕ), p1 ≤ p2 →
      computeScore defaultWeights now m { imp with manualPriority := some p1 }
        ≤ computeScore defaultWeights now m { imp with manualPriority := some p2 }) ∧
    (∀ (now : ℚ) (m imp : Observation) (l1 l2 : ℚ), l1 ≤ l2 →
      computeScore defaultWeights now { m with lastContacted := some l1 } imp
        ≤ computeScore defaultWeights now { m with lastContacted := some l2 } imp) := by
  have hwf : (0 : ℚ) ≤ defaultWeights.frequency := by norm_num [defaultWeights]
  have hwr : (0 : ℚ) ≤ defaultWeights.recency := by norm_num [defaultWeights]
  have hwrr : (0 : ℚ) ≤ defaultWeights.responseRate := by norm_num [defaultWeights]
  have hwm : (0 : ℚ) ≤ defaultWeights.meetingFrequency := by norm_num [defaultWeights]
  have hwp : (0 : ℚ) ≤ defaultWeights.manualPriority := by norm_num [defaultWeights]
  refine ⟨?_, ?_, ?_, ?_, ?_⟩
  · intro now m imp n1 n2 h
    exact computeScore_le defaultWeights hwf hwr hwrr hwm hwp now _ _ _ _
      (normalizeFrequency_mono h) le_rfl le_rfl le_rfl le_rfl
  · intro now m imp r1 r2 h
    exact computeScore_le defaultWeights hwf hwr hwrr hwm hwp now _ _ _ _
      le_rfl le_rfl h le_rfl le_rfl
  · intro now m imp c1 c2 h
    exact computeScore_le defaultWeights hwf hwr hwrr hwm hwp now _ _ _ _
      le_rfl le_rfl le_rfl (normalizeMeetingFrequency_mono h) le_rfl
  · intro now m imp p1 p2 h
    exact computeScore_le defaultWeights hwf hwr hwrr hwm hwp now _ _ _ _
      le_rfl le_rfl le_rfl le_rfl h
  · intro now m imp l1 l2 h
    exact computeScore_le defaultWeights hwf hwr hwrr hwm hwp now _ _ _ _
      le_rfl (normalizeRecency_mono now h) le_rfl le_rfl le_rfl

/-- Plain metric observations used by the witnesses. -/
def emptyCommObs : Observation := { type := "communication_metrics" }

def emptyImpObs : Observation := { type := "importance_metrics" }

/-- Witness for C8 at concrete metric values. -/
theorem C8_score_monotonicity_witness :
    ((3 : ℕ) ≤ 5 ∧
      computeScore defaultWeights 0 { emptyCommObs with emailCount := some 3 } emptyImpObs
        ≤ computeScore defaultWeights 0 { emptyCommObs with emailCount := some 5 } emptyImpObs) ∧
    ((1 : ℚ) / 2 ≤ 1 ∧
      computeScore defaultWeights 0 { emptyCommObs with responseRate := some (1 / 2) } emptyImpObs
        ≤ computeScore defaultWeights 0 { emptyCommObs with responseRate := some 1 } emptyImpObs) ∧
    ((2 : ℕ) ≤ 12 ∧
      computeScore defaultWeights 0 { emptyCommObs with meetingCount := some 2 } emptyImpObs
        ≤ computeScore defaultWeights 0 { emptyCommObs with meetingCount := some 12 } emptyImpObs) ∧
    ((4 : ℕ) ≤ 9 ∧
      computeScore defaultWeights 0 emptyCommObs { emptyImpObs with manualPriority := some 4 }
        ≤ computeScore defaultWeights 0 emptyCommObs { emptyImpObs with manualPriority := some 9 }) ∧
    ((-86400000 : ℚ) ≤ 0 ∧
      computeScore defaultWeights 0 { emptyCommObs with lastContacted := some (-86400000) } emptyImpObs
        ≤ computeScore defaultWeights 0 { emptyCommObs with lastContacted := some 0 } emptyImpObs) :=
  ⟨⟨by norm_num, C8_score_monotonicity.1 0 emptyCommObs emptyImpObs 3 5 (by norm_num)⟩,
   ⟨by norm_num, C8_score_monotonicity.2.1 0 emptyCommObs emptyImpObs (1 / 2) 1 (by norm_num)⟩,
   ⟨by norm_num, C8_score_monotonicity.2.2.1 0 emptyCommObs emptyImpObs 2 12 (by norm_num)⟩,
   ⟨by norm_num, C8_score_monotonicity.2.2.2.1 0 emptyCommObs emptyImpObs 4 9 (by norm_num)⟩,
   ⟨by norm_num, C8_score_monotonicity.2.2.2.2 0 emptyCommObs emptyImpObs (-86400000) 0 (by norm_num)⟩⟩

/-! ### Scoring frame (C10) -/

/-- Field-level frame for one observation: everything except `calculatedScore`
is preserved, and `calculatedScore` itself is preserved unless the observation
is the `importance_metrics` one. -/
def obsFrame (o o' : Observation) : Prop :=
  o'.type = o.type ∧ o'.emailCount = o.emailCount ∧
  o'.lastContacted = o.lastContacted ∧ o'.responseRate = o.responseRate ∧
  o'.meetingCount = o.meetingCount ∧ o'.manualPriority = o.manualPriority ∧
  (o.type ≠ "importance_metrics" → o'.calculatedScore = o.calculatedScore)

/-- Entity-level frame for the scoring pass: identity fields preserved;
non-Contact entities and Contacts missing either metrics observation are
entirely unchanged; observation lists are related pointwise by `obsFrame`. -/
def entityFrame (e e' : Entity) : Prop :=
  e'.id = e.id ∧ e'.name = e.name ∧ e'.entityType = e.entityType ∧
  (e.entityType ≠ "Contact" → e' = e) ∧
  ((e.observations.find? (fun o => o.type == "communication_metrics") = none ∨
    e.observations.find? (fun o => o.type == "importance_metrics") = none) → e' = e) ∧
  List.Forall₂ obsFrame e.observations e'.observations

lemma obsFrame_refl (o : Observation) : obsFrame o o :=
  ⟨rfl, rfl, rfl, rfl, rfl, rfl, fun _ => rfl⟩

lemma forall₂_obsFrame_refl (l : List Observation) : List.Forall₂ obsFrame l l := by
  induction l with
  | nil => exact List.Forall₂.nil
  | cons o os ih => exact List.Forall₂.cons (obsFrame_refl o) ih

lemma entityFrame_refl (e : Entity) : entityFrame e e :=
  ⟨rfl, rfl, rfl, fun _ => rfl, fun _ => rfl, forall₂_obsFrame_refl _⟩

lemma forall₂_updateFirstImportance (s : ℤ) :
    ∀ l : List Observation, List.Forall₂ obsFrame l (updateFirstImportance l s) := by
  intro l
  induction l with
  | nil => exact List.Forall₂.nil
  | cons o os ih =>
    unfold updateFirstImportance
    by_cases ht : (o.type == "importance_metrics") = true
    · rw [if_pos ht]
      refine List.Forall₂.cons ⟨rfl, rfl, rfl, rfl, rfl, rfl, fun hne => ?_⟩
        (forall₂_obsFrame_refl os)
      exact absurd (eq_of_beq ht) hne
    · rw [if_neg ht]
      exact List.Forall₂.cons (obsFrame_refl o) ih

lemma entityFrame_scoreEntity (weights : Weights) (now : ℚ) (e : Entity) :
    entityFrame e (scoreEntity weights now e) := by
  unfold scoreEntity
  by_cases hty : (e.entityType == "Contact") = true
  · rw [if_pos hty]
    cases hc : e.observations.find? (fun o => o.type == "communication_metrics") with
    | none =>
      cases hi : e.observations.find? (fun o => o.type == "importance_metrics") with
      | none => exact entityFrame_refl e
      | some io => exact entityFrame_refl e
    | some mo =>
      cases hi : e.observations.find? (fun o => o.type == "importance_metrics") with
      | none => exact entityFrame_refl e
      | some io =>
        refine ⟨rfl, rfl, rfl, fun hne => absurd (eq_of_beq hty) hne,
          fun habs => ?_, forall₂_updateFirstImportance _ _⟩
        rcases habs with habs | habs
        · rw [hc] at habs
          exact absurd habs (by simp)
        · rw [hi] at habs
          exact absurd habs (by simp)
  · rw [if_neg hty]
    exact entityFrame_refl e

lemma forall₂_entityFrame_map (weights : Weights) (now : ℚ) :
    ∀ l : List Entity, List.Forall₂ entityFrame l (l.map (scoreEntity weights now)) := by
  intro l
  induction l with
  | nil => exact List.Forall₂.nil
  | cons e es ih =>
    exact List.Forall₂.cons (entityFrame_scoreEntity weights now e) ih

/-- C10: the scoring pass writes only the `calculatedScore` field of the
`importance_metrics` observation of Contact entities carrying both metric
observations; relationships, all other fields of all observations,
non-Contact entities, and Contacts lacking either observation are unchanged. -/
theorem C10_scoring_frame (weights : Weights) (now : ℚ) (g : KnowledgeGraph) :
    (calculateImportanceScores weights now g).relationships = g.relationships ∧
    List.Forall₂ entityFrame g.entities (calculateImportanceScores weights now g).entities :=
  ⟨rfl, forall₂_entityFrame_map weights now g.entities⟩

/-! ## Outreach tracker (`src/utilities/outreach_tracker.js`)

Timestamps are milliseconds since the epoch (`ℤ`).  `getWeekNumber` reads the
calendar components of a `Date`; the proleptic-Gregorian conversion between
day numbers and civil dates is modelled with Howard Hinnant's algorithms,
which is what the ECMAScript `Date` specification computes.  The source reads
local-time components (`getFullYear` / `getMonth` / `getDate`); the model
takes the environment's timezone to be UTC. -/

/-- Days since 1970-01-01 of a civil date (`m` is 1-based). -/
def daysFromCivil (y : ℤ) (m d : ℕ) : ℤ :=
  let y2 : ℤ := if m ≤ 2 then y - 1 else y
  let era : ℤ := Int.fdiv y2 400
  let yoe : ℕ := (y2 - era * 400).toNat
  let mp : ℕ := if 2 < m then m - 3 else m + 9
  let doy : ℕ := (153 * mp + 2) / 5 + d - 1
  let doe : ℕ := yoe * 365 + yoe / 4 - yoe / 100 + doy
  era * 146097 + (doe : ℤ) - 719468

/-- The civil date `(year, month, day)` of a day number. -/
def civilFromDays (z : ℤ) : ℤ × ℕ × ℕ :=
  let z2 := z + 719468
  let era : ℤ := Int.fdiv z2 146097
  let doe : ℕ := (z2 - era * 146097).toNat
  let yoe : ℕ := (doe - doe / 1460 + doe / 36524 - doe / 146096) / 365
  let y : ℤ := (yoe : ℤ) + era * 400
  let doy : ℕ := doe - (365 * yoe + yoe / 4 - yoe / 100)
  let mp : ℕ := (5 * doy + 2) / 153
  let d : ℕ := doy - (153 * mp + 2) / 5 + 1
  let m : ℕ := if mp < 10 then mp + 3 else mp - 9
  (if m ≤ 2 then y + 1 else y, m, d)

/-- `Math.ceil(a / 7)` for an integer numerator `a`. -/
def ceilDiv7 (a : ℤ) : ℤ := -(Int.fdiv (-a) 7)

/-- The day number after `d.setUTCDate(d.getUTCDate() + 4 - dayNum)` in
`getWeekNumber`: the Thursday of the Monday-started week of the input date
(`dayNum = d.getUTCDay() || 7`; day 0 of the epoch was a Thursday, so
`getUTCDay` is `(days + 4) % 7`). -/
def thursdayOf (y : ℤ) (m d : ℕ) : ℤ :=
  let days := daysFromCivil y m d
  let dow := (days + 4) % 7
  let dayNum := if dow = 0 then 7 else dow
  days + 4 - dayNum

/-- `getWeekNumber(date)`: after the Thursday shift the source uses only the
shifted date — `isoYear` is its year, `yearStart` is Jan 1 of that year, and
the week is `Math.ceil(((d - yearStart) / 86400000 + 1) / 7)`. -/
def getWeekNumber (y : ℤ) (m d : ℕ) : ℤ × ℤ :=
  let thuDays := thursdayOf y m d
  let isoYear := (civilFromDays thuDays).1
  let yearStart := daysFromCivil isoYear 1 1
  (isoYear, ceilDiv7 (thuDays - yearStart + 1))

/-- `getWeekNumber(new Date(ms))`. -/
def msGetWeekNumber (ms : ℤ) : ℤ × ℤ :=
  let c := civilFromDays (Int.fdiv ms 86400000)
  getWeekNumber c.1 c.2.1 c.2.2

/-- One `outreachStatus` entry. -/
structure OutreachRecord where
  lastOutreachDate : ℤ
  outreachCount : ℕ
  lastEmailSubject : String
  lastEmailTo : String
  responded : Bool
  responseDate : Option ℤ
  responseTime : Option ℚ
deriving DecidableEq

/-- One `trackingCodes` entry, as written by `recordOutreach` (and
`generateTrackingCodes`): note that no writer ever includes a `category`
field. -/
structure TrackingCode where
  contactId : ℕ
  email : String
  outreachDate : ℤ
  signatureChunks : List (List Char)
deriving DecidableEq

structure CategoryMetric where
  sent : ℕ
  responses : ℕ
  responseRate : ℚ
deriving DecidableEq

structure WeeklyStat where
  year : ℤ
  week : ℤ
  sent : ℕ
  responses : ℕ
  responseRate : ℚ
deriving DecidableEq

structure ResponseMetrics where
  totalSent : ℕ
  totalResponses : ℕ
  responseRate : ℚ
  responseTimes : List (ℕ × ℚ)
  categoryMetrics : List (String × CategoryMetric)
  weeklyStats : List WeeklyStat
deriving DecidableEq

structure TrackingData where
  outreachStatus : List (ℕ × OutreachRecord)
  responseMetrics : ResponseMetrics
  trackingCodes : List (ℕ × TrackingCode)
deriving DecidableEq

/-- The generated-email object consumed by `recordOutreach` (`to` is a Lean
keyword, hence `to_`). -/
structure EmailMsg where
  contactId : ℕ
  subject : String
  to_ : String
  category : Option String
deriving DecidableEq

/-- The empty tracking state built by `initializeTrackingSystem`. -/
def emptyTrackingData : TrackingData :=
  { outreachStatus := []
    responseMetrics :=
      { totalSent := 0, totalResponses := 0, responseRate := 0,
        responseTimes := [], categoryMetrics := [], weeklyStats := [] }
    trackingCodes := [] }

/-- In-place update of a string-keyed JavaScript object modelled as an
association list: an existing key keeps its position, a new key is appended. -/
def setKey {α : Type} : List (ℕ × α) → ℕ → α → List (ℕ × α)
  | [], k, v => [(k, v)]
  | (k0, v0) :: rest, k, v =>
    if k0 = k then (k0, v) :: rest else (k0, v0) :: setKey rest k v

/-- The category-sent update of `recordOutreach`: initialize the bucket on
first use, then increment `sent`. -/
def bumpCategorySent : List (String × CategoryMetric) → String → List (String × CategoryMetric)
  | [], c => [(c, { sent := 1, responses := 0, responseRate := 0 })]
  | (k, v) :: rest, c =>
    if k = c then (k, { v with sent := v.sent + 1 }) :: rest
    else (k, v) :: bumpCategorySent rest c

/-- The weekly-sent update of `recordOutreach`: increment the first entry for
the week, or push a fresh entry at the end. -/
def bumpWeekSent : List WeeklyStat → ℤ × ℤ → List WeeklyStat
  | [], yw => [{ year := yw.1, week := yw.2, sent := 1, responses := 0, responseRate := 0 }]
  | w :: rest, yw =>
    if w.year = yw.1 ∧ w.week = yw.2 then { w with sent := w.sent + 1 } :: rest
    else w :: bumpWeekSent rest yw

/-- The weekly-response update of `recordResponse`: only an existing entry is
updated (there is no else branch in the source). -/
def bumpWeekResponse : List WeeklyStat → ℤ × ℤ → List WeeklyStat
  | [], _ => []
  | w :: rest, yw =>
    if w.year = yw.1 ∧ w.week = yw.2 then
      { w with
          responses := w.responses + 1
          responseRate := ((w.responses + 1 : ℕ) : ℚ) / (w.sent : ℚ) } :: rest
    else w :: bumpWeekResponse rest yw

/-- `recordOutreach(email, trackingData)`, with the current time `now` (ms)
passed explicitly (the source reads `new Date()` twice, for the status
timestamp and for the weekly bucket).  The object spread
`...(outreachStatus[contactId] || {})` preserves a `responseTime` left from a
previous responded cycle, while the literal resets `responded: false` and
`responseDate: null` unconditionally. -/
def recordOutreach (email : EmailMsg) (now : ℤ) (td : TrackingData) : TrackingData :=
  let old := td.outreachStatus.lookup email.contactId
  let newRec : OutreachRecord :=
    { lastOutreachDate := now
      outreachCount := (old.map (fun r => r.outreachCount)).getD 0 + 1
      lastEmailSubject := email.subject
      lastEmailTo := email.to_
      responded := false
      responseDate := none
      responseTime := old.bind (fun r => r.responseTime) }
  let newCode : TrackingCode :=
    { contactId := email.contactId, email := email.to_, outreachDate := now,
      signatureChunks := defaultChunks }
  let rm := td.responseMetrics
  let categoryMetrics2 :=
    match email.category with
    | none => rm.categoryMetrics
    | some c => bumpCategorySent rm.categoryMetrics c
  let weeklyStats2 := bumpWeekSent rm.weeklyStats (msGetWeekNumber now)
  { outreachStatus := setKey td.outreachStatus email.contactId newRec
    responseMetrics :=
      { rm with
          totalSent := rm.totalSent + 1
          categoryMetrics := categoryMetrics2
          weeklyStats := weeklyStats2 }
    trackingCodes := setKey td.trackingCodes email.contactId newCode }

/-- The two `throw` sites of `recordResponse`. -/
inductive TrackerError where
  | matchError : TrackerError
  | notFound : ℕ → TrackerError
deriving DecidableEq

/-- The tracking-code scan loop at the top of `recordResponse`: the first
tracking code whose chunks decode the signature to that code's own numeric id
(`decodedId === expectedId`). -/
def resolveSignature (signature : List Char) : List (ℕ × TrackingCode) → Option ℕ
  | [] => none
  | (id0, code) :: rest =>
    if decodeStealthSignature signature code.signatureChunks = (id0 : ℤ) then some id0
    else resolveSignature signature rest

/-- `recordResponse(signature, responseDate, trackingData)`.  The category
block of the source reads `trackingCodes[contactId].category`, a field no
writer of tracking codes ever sets, so the guarded block is dead code and has
no counterpart here.  `ℚ` division by zero is `0` where the source would
produce `Infinity`; it is never hit on states reached through
`recordOutreach` (`totalSent > 0`). -/
def recordResponse (signature : List Char) (responseDate : ℤ) (td : TrackingData) :
    Except TrackerError (TrackingData × ℕ) :=
  match resolveSignature signature td.trackingCodes with
  | none => Except.error TrackerError.matchError
  | some contactId =>
    match td.outreachStatus.lookup contactId with
    | none => Except.error (TrackerError.notFound contactId)
    | some outreachData =>
      let responseTime : ℚ :=
        ((responseDate - outreachData.lastOutreachDate : ℤ) : ℚ) / (1000 * 60 * 60 * 24)
      let outreachData2 :=
        { outreachData with
          responded := true
          responseDate := some responseDate
          responseTime := some responseTime }
      let rm := td.responseMetrics
      let totalResponses2 := rm.totalResponses + 1
      Except.ok
        ({ outreachStatus := setKey td.outreachStatus contactId outreachData2
           responseMetrics :=
             { rm with
               totalResponses := totalResponses2
               responseRate := (totalResponses2 : ℚ) / (rm.totalSent : ℚ)
               responseTimes := setKey rm.responseTimes contactId responseTime
               weeklyStats := bumpWeekResponse rm.weeklyStats (msGetWeekNumber responseDate) }
           trackingCodes := td.trackingCodes }, contactId)

/-! ### Association-list lemmas -/

lemma lookup_setKey_self {α : Type} (l : List (ℕ × α)) (k : ℕ) (v : α) :
    (setKey l k v).lookup k = some v := by
  induction l with
  | nil => simp [setKey, List.lookup]
  | cons p rest ih =>
    obtain ⟨k0, v0⟩ := p
    by_cases h : k0 = k
    · subst h
      simp [setKey, List.lookup]
    · simp only [setKey, if_neg h, List.lookup]
      rw [show (k == k0) = false from beq_eq_false_iff_ne.mpr (Ne.symm h)]
      exact ih

lemma lookup_setKey_other {α : Type} (l : List (ℕ × α)) (k k2 : ℕ) (v : α)
    (h : k2 ≠ k) : (setKey l k v).lookup k2 = l.lookup k2 := by
  induction l with
  | nil =>
    simp only [setKey, List.lookup]
    rw [show (k2 == k) = false from beq_eq_false_iff_ne.mpr h]
  | cons p rest ih =>
    obtain ⟨k0, v0⟩ := p
    by_cases h0 : k0 = k
    · subst h0
      simp only [setKey, if_pos rfl, List.lookup]
      rw [show (k2 == k0) = false from beq_eq_false_iff_ne.mpr h]
    · simp only [setKey, if_neg h0, List.lookup]
      by_cases hk : k2 = k0
      · rw [show (k2 == k0) = true from beq_iff_eq.mpr hk]
      · rw [show (k2 == k0) = false from beq_eq_false_iff_ne.mpr hk]
        exact ih

/-! ### Outreach lifecycle (C3) -/

/-- A generated email for contact 7. -/
def cexEmail : EmailMsg :=
  { contactId := 7, subject := "hello", to_ := "a@b.com", category := none }

/-- The signature `recordOutreach` would embed for contact 7 (the tracking
code it stores carries the default chunk template). -/
def cexSig : List Char := generateStealthSignature 7 defaultChunks

def dummyRecord : OutreachRecord :=
  { lastOutreachDate := 0, outreachCount := 0, lastEmailSubject := "",
    lastEmailTo := "", responded := false, responseDate := none,
    responseTime := none }

/-- C3, counterexample: send (day 0), matched response (day 3) — `responded`
becomes `true` — then a second `recordOutreach` (day ~7): the object literal
in `recordOutreach` sets `responded: false` unconditionally, so the flag
reverts to `false`, contradicting "once responded is true it never reverts to
false under any operation". -/
theorem C3_responded_reset_counterexample :
    ((recordResponse cexSig 259200000 (recordOutreach cexEmail 0 emptyTrackingData)).toOption.map
      (fun p =>
        ((p.1.outreachStatus.lookup 7).map (fun r => r.responded),
          (((recordOutreach cexEmail 600000000 p.1).outreachStatus.lookup 7).map
            (fun r => r.responded)))))
      = some (some true, some false) := by decide

/-- C3 as amended: `recordOutreach` increments `outreachCount`, updates the
last-outreach timestamp, and *resets* `responded` to `false` (each send
starts a new awaiting-response cycle); the flag is one-way only under
`recordResponse`, which never clears a `responded = true` record. -/
theorem C3_responded_lifecycle :
    (∀ (email : EmailMsg) (now : ℤ) (td : TrackingData),
      ∃ r2 : OutreachRecord,
        (recordOutreach email now td).outreachStatus.lookup email.contactId = some r2 ∧
        r2.outreachCount
          = ((td.outreachStatus.lookup email.contactId).map
              (fun r => r.outreachCount)).getD 0 + 1 ∧
        r2.lastOutreachDate = now ∧
        r2.responded = false) ∧
    (∀ (signature : List Char) (t : ℤ) (td td2 : TrackingData) (c k : ℕ)
        (r : OutreachRecord),
      recordResponse signature t td = Except.ok (td2, c) →
      td.outreachStatus.lookup k = some r →
      r.responded = true →
      ∃ r2 : OutreachRecord,
        td2.outreachStatus.lookup k = some r2 ∧ r2.responded = true) := by
  constructor
  · intro email now td
    refine ⟨_, lookup_setKey_self td.outreachStatus email.contactId _, rfl, rfl, rfl⟩
  · intro signature t td td2 c k r hok hlook hresp
    cases hres : resolveSignature signature td.trackingCodes with
    | none =>
      simp only [recordResponse, hres] at hok
      exact Except.noConfusion hok
    | some c0 =>
      cases hlk : td.outreachStatus.lookup c0 with
      | none =>
        simp only [recordResponse, hres, hlk] at hok
        exact Except.noConfusion hok
      | some rec =>
        simp only [recordResponse, hres, hlk, Except.ok.injEq, Prod.mk.injEq] at hok
        obtain ⟨htd, hc⟩ := hok
        subst htd
        by_cases hkc : k = c0
        · subst hkc
          rw [hlook] at hlk
          injection hlk with hlk
          subst hlk
          exact ⟨_, lookup_setKey_self td.outreachStatus k _, rfl⟩
        · exact ⟨r, (lookup_setKey_other td.outreachStatus c0 k _ hkc).trans hlook, hresp⟩

/-- The states of the send → respond → send-again scenario, extracted from
the functions themselves so that the hypotheses of the witness hold by
definitional unfolding. -/
def cexTd1 : TrackingData := recordOutreach cexEmail 0 emptyTrackingData

def cexTd2 : TrackingData :=
  ((recordResponse cexSig 259200000 cexTd1).toOption.map Prod.fst).getD emptyTrackingData

def cexRec2 : OutreachRecord := (cexTd2.outreachStatus.lookup 7).getD dummyRecord

def cexTd3 : TrackingData :=
  ((recordResponse cexSig 345600000 cexTd2).toOption.map Prod.fst).getD emptyTrackingData

/-- Witness for C3: part one at the empty state; part two on a state whose
contact-7 record is already responded. -/
theorem C3_responded_lifecycle_witness :
    (∃ r2 : OutreachRecord,
      (recordOutreach cexEmail 0 emptyTrackingData).outreachStatus.lookup cexEmail.contactId
        = some r2 ∧
      r2.outreachCount
        = ((emptyTrackingData.outreachStatus.lookup cexEmail.contactId).map
            (fun r => r.outreachCount)).getD 0 + 1 ∧
      r2.lastOutreachDate = 0 ∧
      r2.responded = false) ∧
    (recordResponse cexSig 345600000 cexTd2 = Except.ok (cexTd3, 7) ∧
     cexTd2.outreachStatus.lookup 7 = some cexRec2 ∧
     cexRec2.responded = true) ∧
    (∃ r2 : OutreachRecord, cexTd3.outreachStatus.lookup 7 = some r2 ∧ r2.responded = true) :=
  ⟨C3_responded_lifecycle.1 cexEmail 0 emptyTrackingData,
   ⟨rfl, rfl, rfl⟩,
   C3_responded_lifecycle.2 cexSig 345600000 cexTd2 cexTd3 7 7 cexRec2 rfl rfl rfl⟩

/-! ### Response correlation (C7) -/

/-- C7: whenever the tracking-code scan resolves the signature to a contact
`c`, `recordResponse` fails with the not-found error if no outreach record
exists for `c`; otherwise it marks the record responded with `respondedAt`
and `responseTimeDays = (respondedAt - lastOutreachAt) / 86400000 ms`,
increments the global response counter, and recomputes
`responseRate = totalResponses / totalSent`. -/
theorem C7_response_postconditions (signature : List Char) (t : ℤ)
    (td : TrackingData) (c : ℕ)
    (hres : resolveSignature signature td.trackingCodes = some c) :
    (td.outreachStatus.lookup c = none →
      recordResponse signature t td = Except.error (TrackerError.notFound c)) ∧
    (∀ rec : OutreachRecord, td.outreachStatus.lookup c = some rec →
      ∃ td2 : TrackingData,
        recordResponse signature t td = Except.ok (td2, c) ∧
        td2.outreachStatus.lookup c = some
          { rec with
              responded := true
              responseDate := some t
              responseTime := some
                (((t - rec.lastOutreachDate : ℤ) : ℚ) / (1000 * 60 * 60 * 24)) } ∧
        td2.responseMetrics.totalResponses = td.responseMetrics.totalResponses + 1 ∧
        td2.responseMetrics.responseRate
          = ((td.responseMetrics.totalResponses + 1 : ℕ) : ℚ)
            / (td.responseMetrics.totalSent : ℚ)) := by
  constructor
  · intro hnone
    simp only [recordResponse, hres, hnone]
  · intro rec hrec
    refine ⟨⟨setKey td.outreachStatus c
        { rec with responded := true, responseDate := some t, responseTime := some (((t - rec.lastOutreachDate : ℤ) : ℚ) / (1000 * 60 * 60 * 24)) },
      ⟨td.responseMetrics.totalSent,
        td.responseMetrics.totalResponses + 1,
        ((td.responseMetrics.totalResponses + 1 : ℕ) : ℚ) / (td.responseMetrics.totalSent : ℚ),
        setKey td.responseMetrics.responseTimes c (((t - rec.lastOutreachDate : ℤ) : ℚ) / (1000 * 60 * 60 * 24)),
        td.responseMetrics.categoryMetrics,
        bumpWeekResponse td.responseMetrics.weeklyStats (msGetWeekNumber t)⟩,
      td.trackingCodes⟩, ?_, ?_, ?_, ?_⟩
    · simp only [recordResponse, hres, hrec]
    · exact lookup_setKey_self td.outreachStatus c _
    · rfl
    · rfl

/-- Tracking data for the C7 witness: one sent mail to contact 5, with a
two-chunk template. -/
def c7Code : TrackingCode :=
  { contactId := 5, email := "a@b.com", outreachDate := 0,
    signatureChunks := [['a'], ['b']] }

def c7Rec : OutreachRecord :=
  { lastOutreachDate := 0, outreachCount := 1, lastEmailSubject := "s",
    lastEmailTo := "a@b.com", responded := false, responseDate := none,
    responseTime := none }

def c7Td : TrackingData :=
  { outreachStatus := [(5, c7Rec)]
    responseMetrics :=
      { totalSent := 1, totalResponses := 0, responseRate := 0,
        responseTimes := [], categoryMetrics := [], weeklyStats := [] }
    trackingCodes := [(5, c7Code)] }

def c7Sig : List Char := generateStealthSignature 5 [['a'], ['b']]

/-- Witness for C7: response three days after the send. -/
theorem C7_response_postconditions_witness :
    (resolveSignature c7Sig c7Td.trackingCodes = some 5 ∧
     c7Td.outreachStatus.lookup 5 = some c7Rec) ∧
    (∃ td2 : TrackingData,
      recordResponse c7Sig 259200000 c7Td = Except.ok (td2, 5) ∧
      td2.outreachStatus.lookup 5 = some
        { c7Rec with
            responded := true
            responseDate := some 259200000
            responseTime := some
              (((259200000 - c7Rec.lastOutreachDate : ℤ) : ℚ) / (1000 * 60 * 60 * 24)) } ∧
      td2.responseMetrics.totalResponses = c7Td.responseMetrics.totalResponses + 1 ∧
      td2.responseMetrics.responseRate
        = ((c7Td.responseMetrics.totalResponses + 1 : ℕ) : ℚ)
          / (c7Td.responseMetrics.totalSent : ℚ)) :=
  ⟨⟨by decide, by decide⟩,
    (C7_response_postconditions c7Sig 259200000 c7Td 5 (by decide)).2 c7Rec (by decide)⟩

/-! ### ISO week numbering (C9) -/

/-- C9: `getWeekNumber` is Thursday-anchored — 2024-12-30 and 2025-01-02 both
fall in ISO week (2025, 1), and in general the result depends only on the
Thursday of the date's Monday-started week. -/
theorem C9_iso_week :
    getWeekNumber 2024 12 30 = (2025, 1) ∧
    getWeekNumber 2025 1 2 = (2025, 1) ∧
    ∀ (y1 : ℤ) (m1 d1 : ℕ) (y2 : ℤ) (m2 d2 : ℕ),
      thursdayOf y1 m1 d1 = thursdayOf y2 m2 d2 →
      getWeekNumber y1 m1 d1 = getWeekNumber y2 m2 d2 := by
  refine ⟨by decide, by decide, ?_⟩
  intro y1 m1 d1 y2 m2 d2 h
  unfold getWeekNumber
  rw [h]

/-- Witness for C9: the two dates of the claim share their Thursday. -/
theorem C9_iso_week_witness :
    thursdayOf 2024 12 30 = thursdayOf 2025 1 2 ∧
    getWeekNumber 2024 12 30 = getWeekNumber 2025 1 2 :=
  ⟨by decide, C9_iso_week.2.2 2024 12 30 2025 1 2 (by decide)⟩

end ContactProject
